import Mathlib

/-!
Shallow embedding of the gesture-driven 3D particle application
(App.tsx, components/HandController.tsx, components/ParticleSystem.tsx).

JavaScript numbers are modelled as exact real numbers; `Math.sqrt`,
`Math.hypot`, `Math.sin`, `Math.cos` become `Real.sqrt`, `Real.sin`,
`Real.cos`.  Calls to `Math.random()` are modelled as explicit real-valued
arguments (each standing for one `Math.random()` result) of the function
that consumes them, so the per-frame functions stay deterministic in their
inputs, exactly as the source is deterministic in the values the library
returns.
-/

open scoped Classical

noncomputable section

/-- A 3D point, from types.ts (`Point3D` with real x, y, z); MediaPipe hand
landmarks carry the same three fields, so the same structure models a
landmark. -/
structure Point3D where
  x : ℝ
  y : ℝ
  z : ℝ

/-- A 2D normalized screen position, the `{ x, y }` pairs of the source. -/
structure Vec2 where
  x : ℝ
  y : ℝ

/-- The gesture state emitted by the hand controller and consumed by the
animator, from types.ts (`HandState`). -/
structure HandState where
  isDetected : Bool
  position : Vec2
  isPinching : Bool
  openness : ℝ

/-- One detected hand: MediaPipe delivers a fixed array of 21 landmarks. -/
def Hand : Type := Fin 21 → Point3D

/-! ## Gesture interpreter (components/HandController.tsx, onResults) -/

/-- The 2D Euclidean distance used throughout HandController.tsx:
`Math.sqrt(Math.pow(a.x - b.x, 2) + Math.pow(a.y - b.y, 2))`. -/
def planeDist (a b : Point3D) : ℝ :=
  Real.sqrt ((a.x - b.x) ^ 2 + (a.y - b.y) ^ 2)

/-- Pinch distance of a hand: thumb tip (landmark 4) versus index tip
(landmark 8), HandController.tsx lines 128-133. -/
def pinchDist (h : Hand) : ℝ :=
  planeDist (h 4) (h 8)

/-- Openness of a hand, HandController.tsx lines 147-163: the average of the
wrist-to-fingertip distances for fingertips 8, 12, 16, 20, rescaled from
[0.15, 0.40] and clamped by `Math.min(Math.max(.., 0), 1)`. -/
def opennessOf (h : Hand) : ℝ :=
  let wrist := h 0
  let avgDist := (planeDist (h 8) wrist + planeDist (h 12) wrist +
    planeDist (h 16) wrist + planeDist (h 20) wrist) / 4
  min (max ((avgDist - 15 / 100) / (40 / 100 - 15 / 100)) 0) 1

/-- The HandState emitted for the first detected hand, HandController.tsx
lines 124-170: pinching iff the pinch distance is below 0.05; position is the
thumb/index midpoint while pinching, else the middle-finger knuckle
(landmark 9). -/
def handStateOf (h : Hand) : HandState :=
  let isPinching : Bool := pinchDist h < 5 / 100
  let pos : Vec2 :=
    if isPinching then
      ⟨((h 4).x + (h 8).x) / 2, ((h 4).y + (h 8).y) / 2⟩
    else
      ⟨(h 9).x, (h 9).y⟩
  { isDetected := true
    position := pos
    isPinching := isPinching
    openness := opennessOf h }

/-- The HandState emitted when no hand is detected, HandController.tsx lines
172-179. -/
def noHandState : HandState :=
  { isDetected := false
    position := ⟨5 / 10, 5 / 10⟩
    isPinching := false
    openness := 0 }

/-- The HandState the controller emits for a frame, given the list of
detected hands (the first hand drives manipulation; zero hands yield the
default state). -/
def onResultsState (hands : List Hand) : HandState :=
  match hands with
  | [] => noHandState
  | h :: _ => handStateOf h

/-- Centroid of the 21 landmarks of a hand, HandController.tsx lines 99-103
(`getCentroid`: coordinate sums divided by the number of landmarks). -/
def centroid (h : Hand) : Vec2 :=
  ⟨(∑ i : Fin 21, (h i).x) / 21, (∑ i : Fin 21, (h i).y) / 21⟩

/-- Math.hypot for two arguments. -/
def hypot (a b : ℝ) : ℝ :=
  Real.sqrt (a ^ 2 + b ^ 2)

/-- Distance between the centroids of the first two hands of a frame
(`Math.hypot(c1.x - c2.x, c1.y - c2.y)`, HandController.tsx line 108); 0 when
fewer than two hands are present (the value is never consulted then). -/
def pairCentroidDist : List Hand → ℝ
  | h1 :: h2 :: _ => hypot ((centroid h1).x - (centroid h2).x)
      ((centroid h1).y - (centroid h2).y)
  | _ => 0

/-- One frame of the two-hand proximity trigger, HandController.tsx lines
93-119: given the debounce timestamp `last` (the ref lastClapTime), the frame
time `now` (Date.now()) and the detected hands, returns the updated timestamp
and whether onClap fired this frame. -/
def clapStep (last now : ℝ) (hands : List Hand) : ℝ × Bool :=
  if hands.length = 2 then
    if pairCentroidDist hands < 12 / 100 then
      if now - last > 1000 then (now, true) else (last, false)
    else (last, false)
  else (last, false)

/-- The times at which the proximity trigger fires over a sequence of frames
(each frame: its Date.now() value and its detected hands), threading the
lastClapTime ref through `clapStep`. -/
def clapTimes (last : ℝ) : List (ℝ × List Hand) → List ℝ
  | [] => []
  | (now, hands) :: rest =>
    let s := clapStep last now hands
    if s.2 then now :: clapTimes s.1 rest else clapTimes s.1 rest

/-! ## App-level state (App.tsx) -/

/-- Exponential smoothing of the hand state, App.tsx handleHandUpdate lines
32-42: the new state is kept except that openness and position are blended
0.7 previous / 0.3 new. -/
def smoothHand (prev state : HandState) : HandState :=
  { state with
    openness := prev.openness * (7 / 10) + state.openness * (3 / 10)
    position := ⟨prev.position.x * (7 / 10) + state.position.x * (3 / 10),
                 prev.position.y * (7 / 10) + state.position.y * (3 / 10)⟩ }

/-- The shape identifiers of types.ts (`ShapeType`). -/
inductive ShapeType where
  | Sphere | Cube | Heart | Flower | Saturn | Fireworks | Buddha | GeminiGenerated
deriving DecidableEq

/-- The App.tsx session state touched by handleClap: current shape, target
cloud, particle color and the explosion flag. -/
structure AppState where
  shapeType : ShapeType
  targetPoints : List Point3D
  color : String
  isExploding : Bool

/-- Immediate effect of the proximity/clap trigger, App.tsx handleClap lines
44-72: when already exploding it returns at once (state untouched, nothing
scheduled); otherwise it sets the explosion flag and schedules the 500ms
timeout that will later switch shape and color.  The boolean records whether
that timeout was scheduled; the deferred callback itself runs outside this
function. -/
def handleClap (s : AppState) : AppState × Bool :=
  if s.isExploding then (s, false)
  else ({ s with isExploding := true }, true)

/-! ## Particle animator (components/ParticleSystem.tsx, useFrame) -/

/-- THREE.MathUtils.lerp: `(1 - t) * x + t * y`. -/
def lerp (x y t : ℝ) : ℝ :=
  (1 - t) * x + t * y

/-- Target point for particle i, ParticleSystem.tsx lines 140-144:
`targetLen = targetPoints.length || 1` and
`targetPoints[i % targetLen] || { x: 0, y: 0, z: 0 }` (an out-of-range index
yields undefined, hence the origin). -/
def targetAt (targetPoints : List Point3D) (i : ℕ) : Point3D :=
  let targetLen := if targetPoints.length = 0 then 1 else targetPoints.length
  targetPoints.getD (i % targetLen) ⟨0, 0, 0⟩

/-- Target scale factor of the steady-state branch, ParticleSystem.tsx lines
127-136: 1.0 while pinching, 0.2 + 1.3 x openness otherwise when detected,
1.5 when no hand is detected. -/
def targetScale (hs : HandState) : ℝ :=
  if hs.isDetected then
    (if hs.isPinching then 1 else 2 / 10 + hs.openness * (13 / 10))
  else 3 / 2

/-- One steady-state (non-exploding) tick of particle i, ParticleSystem.tsx
lines 138-167: lerp each coordinate 0.1 of the way to the scaled target, then
add the secondary motion — none while pinching, a random jitter
`(Math.random() - 0.5) * 0.05` per axis when detected and compressed
(openness below 0.2; r1 r2 r3 stand for the three Math.random() results), and
the idle sinusoidal drift `Math.sin(time * 0.5 + i) * 0.002` /
`Math.cos(time * 0.3 + i) * 0.002` on x and y otherwise. -/
def particleTick (hs : HandState) (targetPoints : List Point3D) (time : ℝ)
    (i : ℕ) (cur : Point3D) (r1 r2 r3 : ℝ) : Point3D :=
  let target := targetAt targetPoints i
  let s := targetScale hs
  let b : Point3D := ⟨lerp cur.x (target.x * s) (1 / 10),
    lerp cur.y (target.y * s) (1 / 10),
    lerp cur.z (target.z * s) (1 / 10)⟩
  if hs.isDetected && hs.isPinching then b
  else if hs.isDetected = true ∧ hs.openness < 2 / 10 then
    ⟨b.x + (r1 - 5 / 10) * (5 / 100),
     b.y + (r2 - 5 / 10) * (5 / 100),
     b.z + (r3 - 5 / 10) * (5 / 100)⟩
  else
    ⟨b.x + Real.sin (time * (5 / 10) + (i : ℝ)) * (2 / 1000),
     b.y + Real.cos (time * (3 / 10) + (i : ℝ)) * (2 / 1000),
     b.z⟩

/-- Per-particle expansion speed of the explosion branch, ParticleSystem.tsx
lines 53-61: `1.08 * (1.0 + (i % 10) * 0.004)`. -/
def explosionSpeed (i : ℕ) : ℝ :=
  (108 / 100) * (1 + ((i % 10 : ℕ) : ℝ) * (4 / 1000))

/-- One explosion tick of particle i, ParticleSystem.tsx lines 63-65: each
coordinate is multiplied by the particle's expansion speed. -/
def explosionTick (i : ℕ) (cur : Point3D) : Point3D :=
  ⟨cur.x * explosionSpeed i, cur.y * explosionSpeed i, cur.z * explosionSpeed i⟩

/-- Particle i after n explosion ticks. -/
def explosionIter (i : ℕ) : ℕ → Point3D → Point3D
  | 0, cur => cur
  | n + 1, cur => explosionTick i (explosionIter i n cur)

/-- Squared distance of a particle from the origin. -/
def dist2 (p : Point3D) : ℝ :=
  p.x ^ 2 + p.y ^ 2 + p.z ^ 2

/-- Euclidean distance of a particle from the origin. -/
def norm3 (p : Point3D) : ℝ :=
  Real.sqrt (dist2 p)

/-- The group transform the animator owns: the THREE.Group position and its
accumulated rotation angles. -/
structure GroupTransform where
  position : Point3D
  rotX : ℝ
  rotY : ℝ
  rotZ : ℝ

/-- Move logic of a steady-state tick, ParticleSystem.tsx lines 83-103: while
a hand is detected and pinching, lerp the group position 0.15 of the way to
the viewport-mapped gesture position (THREE.Vector3.lerp adds
`(target - current) * alpha` to each coordinate); otherwise the position is
left exactly as it was. -/
def groupMove (g : GroupTransform) (hs : HandState) (vw vh : ℝ) : GroupTransform :=
  if hs.isDetected && hs.isPinching then
    let tx := -(hs.position.x - 5 / 10) * vw
    let ty := -(hs.position.y - 5 / 10) * vh
    { g with position := ⟨g.position.x + (tx - g.position.x) * (15 / 100),
        g.position.y + (ty - g.position.y) * (15 / 100),
        g.position.z + (0 - g.position.z) * (15 / 100)⟩ }
  else g

/-- Rotate logic of a steady-state tick, ParticleSystem.tsx lines 105-116:
when a hand is detected, not pinching and openness exceeds 0.6, the gesture
delta against the remembered previous position (if any) scaled by 5.0 is
added to yaw and pitch; in every other case a constant 0.001 idle yaw is
added.  When the flat-palm condition holds but no previous position is
remembered, nothing at all is added. -/
def groupRotate (g : GroupTransform) (hs : HandState) (prev : Option Vec2) :
    GroupTransform :=
  if hs.isDetected = true ∧ hs.isPinching = false ∧ hs.openness > 6 / 10 then
    match prev with
    | some p =>
      { g with rotY := g.rotY + (hs.position.x - p.x) * 5,
               rotX := g.rotX + (hs.position.y - p.y) * 5 }
    | none => g
  else { g with rotY := g.rotY + 1 / 1000 }

/-- Update of the prevHandPos ref, ParticleSystem.tsx lines 118-123: the
gesture position while detected, cleared otherwise. -/
def nextPrevHandPos (hs : HandState) : Option Vec2 :=
  if hs.isDetected then some hs.position else none

/-- The group-transform part of one steady-state tick: move, then rotate,
then remember the hand position for the next frame. -/
def groupFrame (g : GroupTransform) (prev : Option Vec2) (hs : HandState)
    (vw vh : ℝ) : GroupTransform × Option Vec2 :=
  (groupRotate (groupMove g hs vw vh) hs prev, nextPrevHandPos hs)

/-- The group transform and prevHandPos ref after a sequence of steady-state
ticks, one per hand state in the list. -/
def groupRun (g : GroupTransform) (prev : Option Vec2) (vw vh : ℝ) :
    List HandState → GroupTransform × Option Vec2
  | [] => (g, prev)
  | hs :: rest => groupRun (groupFrame g prev hs vw vh).1
      (groupFrame g prev hs vw vh).2 vw vh rest

/-- A hand whose 21 landmarks all sit at the origin, used to evaluate the
frame functions on concrete inputs. -/
def constHand : Hand := fun _ => ⟨0, 0, 0⟩

/-! ## Theorems -/

/-- C1 counterexample: with no hand detected the steady-state tick is not a
pure contraction toward the scaled target.  With the constant one-point cloud
at the origin, a particle sitting exactly on its scaled target (the origin)
and elapsed time pi, the idle sinusoidal drift moves the x coordinate to
0.002, so the distance to the target strictly increases instead of
decreasing. -/
theorem steadyTick_idleDrift_cex :
    |(particleTick noHandState [⟨0, 0, 0⟩] Real.pi 0 ⟨0, 0, 0⟩ 0 0 0).x -
        (3 / 2) * (targetAt [⟨0, 0, 0⟩] 0).x| >
      |(Point3D.mk 0 0 0).x - (3 / 2) * (targetAt [⟨0, 0, 0⟩] 0).x| := by
  have htarget : targetAt [(⟨0, 0, 0⟩ : Point3D)] 0 = ⟨0, 0, 0⟩ := rfl
  rw [htarget]
  simp only [particleTick, noHandState, targetScale, lerp, htarget]
  norm_num
  rw [show Real.pi * (1 / 2) = Real.pi / 2 by ring, Real.sin_pi_div_two]
  norm_num

/-- C1 amended: on a steady-state tick with no hand detected, the scale
factor is 1.5 and every coordinate is first lerped 10 percent of the way to
the scaled target (an exact 0.9-factor contraction of the signed distance, so
that step alone is monotone and never overshoots); the z coordinate receives
nothing else, while x and y then gain the idle sinusoidal drift of magnitude
at most 0.002, so their distance to the target only satisfies
new <= 0.9 old + 0.002 and need not decrease monotonically. -/
theorem steadyTick_contraction (hs : HandState) (cloud : List Point3D)
    (time : ℝ) (i : ℕ) (cur : Point3D) (r1 r2 r3 : ℝ)
    (h : hs.isDetected = false) :
    targetScale hs = 3 / 2 ∧
    (particleTick hs cloud time i cur r1 r2 r3).z - (3 / 2) * (targetAt cloud i).z =
      (9 / 10) * (cur.z - (3 / 2) * (targetAt cloud i).z) ∧
    (particleTick hs cloud time i cur r1 r2 r3).x - (3 / 2) * (targetAt cloud i).x =
      (9 / 10) * (cur.x - (3 / 2) * (targetAt cloud i).x) +
        Real.sin (time * (5 / 10) + (i : ℝ)) * (2 / 1000) ∧
    (particleTick hs cloud time i cur r1 r2 r3).y - (3 / 2) * (targetAt cloud i).y =
      (9 / 10) * (cur.y - (3 / 2) * (targetAt cloud i).y) +
        Real.cos (time * (3 / 10) + (i : ℝ)) * (2 / 1000) ∧
    |(particleTick hs cloud time i cur r1 r2 r3).x - (3 / 2) * (targetAt cloud i).x| ≤
      (9 / 10) * |cur.x - (3 / 2) * (targetAt cloud i).x| + 2 / 1000 ∧
    |(particleTick hs cloud time i cur r1 r2 r3).y - (3 / 2) * (targetAt cloud i).y| ≤
      (9 / 10) * |cur.y - (3 / 2) * (targetAt cloud i).y| + 2 / 1000 := by
  have hscale : targetScale hs = 3 / 2 := by
    simp [targetScale, h]
  have hp : particleTick hs cloud time i cur r1 r2 r3 =
      ⟨lerp cur.x ((targetAt cloud i).x * (3 / 2)) (1 / 10) +
          Real.sin (time * (5 / 10) + (i : ℝ)) * (2 / 1000),
        lerp cur.y ((targetAt cloud i).y * (3 / 2)) (1 / 10) +
          Real.cos (time * (3 / 10) + (i : ℝ)) * (2 / 1000),
        lerp cur.z ((targetAt cloud i).z * (3 / 2)) (1 / 10)⟩ := by
    simp [particleTick, h, hscale]
  have habs : ∀ d s : ℝ, |s| ≤ 1 →
      |(9 / 10) * d + s * (2 / 1000)| ≤ (9 / 10) * |d| + 2 / 1000 := by
    intro d s hsb
    calc |(9 / 10) * d + s * (2 / 1000)|
        ≤ |(9 / 10) * d| + |s * (2 / 1000)| := abs_add _ _
      _ = (9 / 10) * |d| + |s| * (2 / 1000) := by
          rw [abs_mul, abs_mul,
            abs_of_nonneg (by norm_num : (0 : ℝ) ≤ 9 / 10),
            abs_of_nonneg (by norm_num : (0 : ℝ) ≤ 2 / 1000)]
      _ ≤ (9 / 10) * |d| + 1 * (2 / 1000) := by
          have h2 : |s| * (2 / 1000) ≤ 1 * (2 / 1000) := by
            apply mul_le_mul_of_nonneg_right hsb
            norm_num
          linarith
      _ = (9 / 10) * |d| + 2 / 1000 := by ring
  refine ⟨hscale, ?_, ?_, ?_, ?_, ?_⟩
  · rw [hp]
    simp only [lerp]
    ring
  · rw [hp]
    simp only [lerp]
    ring
  · rw [hp]
    simp only [lerp]
    ring
  · have hx : (particleTick hs cloud time i cur r1 r2 r3).x -
        (3 / 2) * (targetAt cloud i).x =
        (9 / 10) * (cur.x - (3 / 2) * (targetAt cloud i).x) +
          Real.sin (time * (5 / 10) + (i : ℝ)) * (2 / 1000) := by
      rw [hp]
      simp only [lerp]
      ring
    rw [hx]
    exact habs _ _ (abs_le.mpr ⟨Real.neg_one_le_sin _, Real.sin_le_one _⟩)
  · have hy : (particleTick hs cloud time i cur r1 r2 r3).y -
        (3 / 2) * (targetAt cloud i).y =
        (9 / 10) * (cur.y - (3 / 2) * (targetAt cloud i).y) +
          Real.cos (time * (3 / 10) + (i : ℝ)) * (2 / 1000) := by
      rw [hp]
      simp only [lerp]
      ring
    rw [hy]
    exact habs _ _ (abs_le.mpr ⟨Real.neg_one_le_cos _, Real.cos_le_one _⟩)

/-- Witness for steadyTick_contraction at a concrete no-hand state, empty
cloud and particle (1, 2, 3): the scale factor is 1.5 and the z coordinate
contracts by exactly 0.9. -/
theorem steadyTick_contraction_witness :
    targetScale noHandState = 3 / 2 ∧
    (particleTick noHandState [] 0 0 ⟨1, 2, 3⟩ 0 0 0).z -
        (3 / 2) * (targetAt [] 0).z =
      (9 / 10) * ((Point3D.mk 1 2 3).z - (3 / 2) * (targetAt [] 0).z) :=
  ⟨(steadyTick_contraction noHandState [] 0 0 ⟨1, 2, 3⟩ 0 0 0 rfl).1,
   (steadyTick_contraction noHandState [] 0 0 ⟨1, 2, 3⟩ 0 0 0 rfl).2.1⟩

/-- C4: the animator's per-tick target lookup is total: for every cloud and
particle index, an empty cloud yields the origin point (the length is treated
as 1, so every index maps to the missing element 0 and falls back to the
origin), and a non-empty cloud yields exactly its element at index
i mod cloud_length (modulo wraparound). -/
theorem targetAt_total (cloud : List Point3D) (i : ℕ) :
    (cloud = [] → targetAt cloud i = ⟨0, 0, 0⟩) ∧
    (cloud ≠ [] → cloud[i % cloud.length]? = some (targetAt cloud i)) := by
  constructor
  · intro h
    subst h
    rfl
  · intro h
    have hlen : cloud.length ≠ 0 := by
      simpa [List.length_eq_zero] using h
    have hlt : i % cloud.length < cloud.length :=
      Nat.mod_lt _ (Nat.pos_of_ne_zero hlen)
    unfold targetAt
    simp [hlen, List.getElem?_eq_getElem hlt]

/-- C10: a clap trigger received while the explosion flag is already set is a
complete no-op: the session state (shape, target cloud, color, explosion
flag) is returned unchanged and no new 500ms explosion window or deferred
shape switch is scheduled. -/
theorem handleClap_noop (s : AppState) (h : s.isExploding = true) :
    handleClap s = (s, false) := by
  unfold handleClap
  simp [h]

/-- Witness for handleClap_noop at a concrete exploding session state. -/
theorem handleClap_noop_witness :
    handleClap ⟨ShapeType.Heart, [], "#f43f5e", true⟩ =
      (⟨ShapeType.Heart, [], "#f43f5e", true⟩, false) :=
  handleClap_noop ⟨ShapeType.Heart, [], "#f43f5e", true⟩ rfl

/-- C6: for every hand-landmark frame, whatever the landmark coordinates, the
emitted openness is the average wrist-to-fingertip distance (fingertips 8,
12, 16, 20) rescaled from [0.15, 0.40] and clamped, and it always lies in
[0, 1]. -/
theorem openness_clamped (h : Hand) :
    (handStateOf h).openness =
      min (max (((planeDist (h 8) (h 0) + planeDist (h 12) (h 0) +
        planeDist (h 16) (h 0) + planeDist (h 20) (h 0)) / 4 - 15 / 100) /
          (40 / 100 - 15 / 100)) 0) 1 ∧
    0 ≤ (handStateOf h).openness ∧ (handStateOf h).openness ≤ 1 := by
  refine ⟨rfl, ?_, ?_⟩
  · exact le_min (le_max_right _ 0) zero_le_one
  · exact min_le_right _ 1

/-- C9: for every detected hand, the hand is classified as pinching exactly
when the 2D Euclidean distance between thumb tip (landmark 4) and index tip
(landmark 8) is strictly below 0.05, and a distance exactly at the 0.05
boundary is deterministically classified as not pinching. -/
theorem pinch_boundary (h : Hand) :
    ((handStateOf h).isPinching = true ↔
      Real.sqrt (((h 4).x - (h 8).x) ^ 2 + ((h 4).y - (h 8).y) ^ 2) < 5 / 100) ∧
    (Real.sqrt (((h 4).x - (h 8).x) ^ 2 + ((h 4).y - (h 8).y) ^ 2) = 5 / 100 →
      (handStateOf h).isPinching = false) := by
  have hpin : (handStateOf h).isPinching = ((pinchDist h < 5 / 100 : Prop) : Bool) := rfl
  constructor
  · rw [hpin]
    simp [pinchDist, planeDist]
  · intro hb
    rw [hpin]
    simp only [pinchDist, planeDist, hb]
    simp

/-- Every explosion speed strictly exceeds 1. -/
theorem one_lt_explosionSpeed (i : ℕ) : 1 < explosionSpeed i := by
  unfold explosionSpeed
  have h0 : (0 : ℝ) ≤ ((i % 10 : ℕ) : ℝ) := Nat.cast_nonneg _
  nlinarith

/-- The explosion speed is strictly monotone in the particle layer
index mod 10. -/
theorem explosionSpeed_strictMono (i j : ℕ) (h : i % 10 < j % 10) :
    explosionSpeed i < explosionSpeed j := by
  unfold explosionSpeed
  have hc : ((i % 10 : ℕ) : ℝ) < ((j % 10 : ℕ) : ℝ) := by exact_mod_cast h
  nlinarith

/-- One explosion tick multiplies the squared distance from the origin by
the squared speed. -/
theorem dist2_explosionTick (i : ℕ) (p : Point3D) :
    dist2 (explosionTick i p) = explosionSpeed i ^ 2 * dist2 p := by
  unfold dist2 explosionTick
  ring

/-- One explosion tick multiplies the Euclidean distance from the origin by
the speed. -/
theorem norm3_explosionTick (i : ℕ) (p : Point3D) :
    norm3 (explosionTick i p) = explosionSpeed i * norm3 p := by
  unfold norm3
  rw [dist2_explosionTick, Real.sqrt_mul (sq_nonneg _),
    Real.sqrt_sq (le_of_lt (lt_trans one_pos (one_lt_explosionSpeed i)))]

/-- After n explosion ticks the distance from the origin is the initial
distance times the speed to the n-th power. -/
theorem norm3_explosionIter (i : ℕ) (n : ℕ) (p : Point3D) :
    norm3 (explosionIter i n p) = explosionSpeed i ^ n * norm3 p := by
  induction n with
  | zero => simp [explosionIter]
  | succ n ih =>
    rw [explosionIter, norm3_explosionTick, ih, pow_succ]
    ring

/-- A particle not at the origin has strictly positive distance from it. -/
theorem norm3_pos (p : Point3D) (h : dist2 p ≠ 0) : 0 < norm3 p := by
  apply Real.sqrt_pos.mpr
  have hnn : (0 : ℝ) ≤ dist2 p := by
    unfold dist2
    positivity
  rcases lt_or_eq_of_le hnn with hlt | heq
  · exact hlt
  · exact absurd heq.symm h

/-- C2 counterexample: a particle exactly at the origin keeps distance zero
through an explosion tick, so its distance from the origin is not strictly
increasing on every tick. -/
theorem explosion_origin_cex :
    ¬ norm3 (Point3D.mk 0 0 0) < norm3 (explosionTick 0 ⟨0, 0, 0⟩) := by
  have h1 : explosionTick 0 ⟨0, 0, 0⟩ = ⟨0, 0, 0⟩ := by
    unfold explosionTick
    simp
  rw [h1]
  exact lt_irrefl _

/-- C2 amended: during an explosion, every particle not exactly at the origin
(the origin is a fixed point of the expansion) has strictly increasing
distance from the origin on every tick, and for two particles off the origin
in different layers (different index mod 10) the difference of their
distances from the origin grows without bound as the ticks proceed: the
faster layer eventually outruns the slower one by any margin. -/
theorem explosion_distance_grows (i j : ℕ) (p q : Point3D)
    (hp : dist2 p ≠ 0) (hq : dist2 q ≠ 0) (hij : i % 10 < j % 10) :
    norm3 p < norm3 (explosionTick i p) ∧
    (∀ B : ℝ, ∃ N : ℕ, ∀ m : ℕ, N ≤ m →
      B < norm3 (explosionIter j m q) - norm3 (explosionIter i m p)) := by
  set r := explosionSpeed i with hr
  set s := explosionSpeed j with hs
  have hr1 : 1 < r := one_lt_explosionSpeed i
  have hs1 : 1 < s := one_lt_explosionSpeed j
  have hrs : r < s := explosionSpeed_strictMono i j hij
  have hr0 : 0 < r := lt_trans one_pos hr1
  have ha : 0 < norm3 p := norm3_pos p hp
  have hb : 0 < norm3 q := norm3_pos q hq
  constructor
  · rw [norm3_explosionTick]
    exact (lt_mul_iff_one_lt_left ha).mpr hr1
  · intro B
    set a := norm3 p
    set b := norm3 q
    set t := s / r with ht
    have ht1 : 1 < t := (one_lt_div hr0).mpr hrs
    have htpos : 0 < t - 1 := by linarith
    have hbt : 0 < b * (t - 1) := mul_pos hb htpos
    obtain ⟨N, hN⟩ := exists_nat_gt ((max B 0 + a) / (b * (t - 1)))
    refine ⟨N, fun m hm => ?_⟩
    have hNm : ((max B 0 + a) / (b * (t - 1))) < (m : ℝ) :=
      lt_of_lt_of_le hN (by exact_mod_cast hm)
    have hmB : max B 0 + a < (m : ℝ) * (b * (t - 1)) :=
      (div_lt_iff₀ hbt).mp hNm
    have hbern : 1 + (m : ℝ) * (t - 1) ≤ t ^ m := by
      have := one_add_mul_le_pow (a := t - 1) (by linarith) m
      calc 1 + (m : ℝ) * (t - 1) ≤ (1 + (t - 1)) ^ m := this
        _ = t ^ m := by ring_nf
    -- the gap before the common factor r ^ m
    have hX : max B 0 < b * t ^ m - a := by
      have h1 : b * (1 + (m : ℝ) * (t - 1)) ≤ b * t ^ m :=
        mul_le_mul_of_nonneg_left hbern (le_of_lt hb)
      have h2 : b + (m : ℝ) * (b * (t - 1)) = b * (1 + (m : ℝ) * (t - 1)) := by
        ring
      nlinarith
    have hX0 : 0 ≤ b * t ^ m - a := le_of_lt (lt_of_le_of_lt (le_max_right B 0) hX)
    have hrm1 : 1 ≤ r ^ m := one_le_pow₀ (le_of_lt hr1)
    have hfac : b * t ^ m - a ≤ r ^ m * (b * t ^ m - a) :=
      le_mul_of_one_le_left hX0 hrm1
    have hsm : r ^ m * t ^ m = s ^ m := by
      rw [ht, div_pow]
      field_simp
    have hgap : norm3 (explosionIter j m q) - norm3 (explosionIter i m p) =
        r ^ m * (b * t ^ m - a) := by
      rw [norm3_explosionIter, norm3_explosionIter, ← hsm]
      ring
    rw [hgap]
    calc B ≤ max B 0 := le_max_left B 0
      _ < b * t ^ m - a := hX
      _ ≤ r ^ m * (b * t ^ m - a) := hfac

/-- Witness for explosion_distance_grows: layers 0 and 1 with both particles
at distance 1 from the origin; the first tick strictly increases the distance
of the layer-0 particle. -/
theorem explosion_distance_grows_witness :
    norm3 (Point3D.mk 1 0 0) < norm3 (explosionTick 0 ⟨1, 0, 0⟩) :=
  (explosion_distance_grows 0 1 ⟨1, 0, 0⟩ ⟨1, 0, 0⟩
    (by norm_num [dist2]) (by norm_num [dist2]) (by norm_num)).1

/-- C3 counterexample: detection loss does not reset the consumed state to
the exact defaults.  With previous smoothed position (1, 1) and openness 1,
the state consumed after a no-detection frame has isDetected false but
position x 0.85 (not 0.5) and openness 0.7 (not 0), because
handleHandUpdate blends 0.7 previous / 0.3 new before consumption. -/
theorem smoothedNoHand_cex :
    (smoothHand ⟨true, ⟨1, 1⟩, false, 1⟩ noHandState).isDetected = false ∧
    (smoothHand ⟨true, ⟨1, 1⟩, false, 1⟩ noHandState).position.x ≠ 5 / 10 ∧
    (smoothHand ⟨true, ⟨1, 1⟩, false, 1⟩ noHandState).openness ≠ 0 := by
  refine ⟨rfl, ?_, ?_⟩ <;>
    · simp only [smoothHand, noHandState]
      norm_num

/-- C3 amended: when no hand is detected the RAW GestureState emitted by the
interpreter has position exactly (0.5, 0.5), isPinching false and openness 0;
the exponentially smoothed state the animator consumes keeps isDetected and
isPinching false, while its openness is multiplied by 0.7 and its position
contracts toward the center by 0.7 each frame (so both converge
geometrically to the defaults rather than equalling them). -/
theorem noHand_smoothing_inv (prev : HandState) :
    onResultsState [] = noHandState ∧
    noHandState.isDetected = false ∧
    noHandState.position = ⟨5 / 10, 5 / 10⟩ ∧
    noHandState.isPinching = false ∧
    noHandState.openness = 0 ∧
    (smoothHand prev noHandState).isDetected = false ∧
    (smoothHand prev noHandState).isPinching = false ∧
    (smoothHand prev noHandState).openness = (7 / 10) * prev.openness ∧
    (smoothHand prev noHandState).position.x - 5 / 10 =
      (7 / 10) * (prev.position.x - 5 / 10) ∧
    (smoothHand prev noHandState).position.y - 5 / 10 =
      (7 / 10) * (prev.position.y - 5 / 10) := by
  refine ⟨rfl, rfl, rfl, rfl, rfl, rfl, rfl, ?_, ?_, ?_⟩ <;>
    · simp only [smoothHand, noHandState]
      ring

/-- A proximity frame either leaves the debounce state alone without firing,
or fires, records the frame time, and the frame time exceeded the recorded
time by more than 1000ms. -/
theorem clapStep_spec (last now : ℝ) (hands : List Hand) :
    clapStep last now hands = (last, false) ∨
    (clapStep last now hands = (now, true) ∧ now - last > 1000) := by
  unfold clapStep
  split_ifs with h1 h2 h3
  · exact Or.inr ⟨rfl, h3⟩
  · exact Or.inl rfl
  · exact Or.inl rfl
  · exact Or.inl rfl

/-- Every firing time produced from debounce state `last` exceeds
last + 1000. -/
theorem clapTimes_all_gap (frames : List (ℝ × List Hand)) :
    ∀ last, ∀ t ∈ clapTimes last frames, last + 1000 < t := by
  induction frames with
  | nil =>
    intro last t ht
    simp [clapTimes] at ht
  | cons f rest ih =>
    intro last t ht
    obtain ⟨now, hands⟩ := f
    rcases clapStep_spec last now hands with hcs | ⟨hcs, hgt⟩
    · have hstep : clapTimes last ((now, hands) :: rest) = clapTimes last rest := by
        simp [clapTimes, hcs]
      rw [hstep] at ht
      exact ih last t ht
    · have hstep : clapTimes last ((now, hands) :: rest) =
          now :: clapTimes now rest := by
        simp [clapTimes, hcs]
      rw [hstep] at ht
      rcases List.mem_cons.mp ht with heq | ht2
      · rw [heq]
        linarith
      · have := ih now t ht2
        linarith

/-- Any two firing times in a run are separated by more than 1000ms. -/
theorem clapTimes_pairwise (frames : List (ℝ × List Hand)) :
    ∀ last, (clapTimes last frames).Pairwise (fun a b => a + 1000 < b) := by
  induction frames with
  | nil =>
    intro last
    simp [clapTimes]
  | cons f rest ih =>
    intro last
    obtain ⟨now, hands⟩ := f
    rcases clapStep_spec last now hands with hcs | ⟨hcs, _⟩
    · have hstep : clapTimes last ((now, hands) :: rest) = clapTimes last rest := by
        simp [clapTimes, hcs]
      rw [hstep]
      exact ih last
    · have hstep : clapTimes last ((now, hands) :: rest) =
          now :: clapTimes now rest := by
        simp [clapTimes, hcs]
      rw [hstep]
      refine List.pairwise_cons.mpr ⟨fun t ht => ?_, ih now⟩
      exact clapTimes_all_gap rest now t ht

/-- C5: starting from the initial debounce state (lastClapTime 0), over any
frame sequence in which every frame has exactly two hands with centroid
distance below 0.12 and a realistic clock value (Date.now() above 1000), the
proximity trigger fires on the very first frame, and any two firings are
separated by more than 1000ms, so it never fires twice within 1000ms. -/
theorem clap_debounce (frames : List (ℝ × List Hand))
    (h : ∀ f ∈ frames,
      f.2.length = 2 ∧ pairCentroidDist f.2 < 12 / 100 ∧ 1000 < f.1) :
    (clapTimes 0 frames).head? = frames.head?.map Prod.fst ∧
    (clapTimes 0 frames).Pairwise (fun a b => a + 1000 < b) := by
  refine ⟨?_, clapTimes_pairwise frames 0⟩
  cases frames with
  | nil => rfl
  | cons f rest =>
    obtain ⟨now, hands⟩ := f
    obtain ⟨h2, hdist, htime⟩ := h (now, hands) (List.mem_cons_self _ _)
    have hcs : clapStep 0 now hands = (now, true) := by
      unfold clapStep
      rw [if_pos h2, if_pos hdist, if_pos (by simpa using htime)]
    simp [clapTimes, hcs]

/-- Witness for clap_debounce at a single concrete frame: two coincident
hands (centroid distance 0) at time 2000 make the trigger fire on that
frame. -/
theorem clap_debounce_witness :
    (clapTimes 0 [((2000 : ℝ), [constHand, constHand])]).head? =
      [((2000 : ℝ), [constHand, constHand])].head?.map Prod.fst ∧
    (clapTimes 0 [((2000 : ℝ), [constHand, constHand])]).Pairwise
      (fun a b => a + 1000 < b) :=
  clap_debounce [((2000 : ℝ), [constHand, constHand])]
    (by
      intro f hf
      rw [List.mem_singleton] at hf
      subst hf
      refine ⟨rfl, ?_, by norm_num⟩
      have hc : centroid constHand = ⟨0, 0⟩ := by
        simp [centroid, constHand]
      simp only [pairCentroidDist, hc, hypot]
      norm_num)

/-- The rotate logic never touches the group position. -/
theorem groupRotate_position (g : GroupTransform) (hs : HandState)
    (prev : Option Vec2) : (groupRotate g hs prev).position = g.position := by
  unfold groupRotate
  split
  · cases prev <;> rfl
  · rfl

/-- The move logic leaves the group position unchanged whenever the
detected-and-pinching condition fails. -/
theorem groupMove_position_hold (g : GroupTransform) (hs : HandState)
    (vw vh : ℝ) (h : ¬(hs.isDetected = true ∧ hs.isPinching = true)) :
    (groupMove g hs vw vh).position = g.position := by
  unfold groupMove
  rw [if_neg]
  simpa using h

/-- C7: over any run of non-exploding ticks in which the pinch condition
never holds (in particular whenever zero hands are detected), the group
position is left exactly unchanged: it neither drifts toward the origin nor
resets. -/
theorem groupPos_hold (g : GroupTransform) (prev : Option Vec2) (vw vh : ℝ)
    (states : List HandState)
    (h : ∀ hs ∈ states, ¬(hs.isDetected = true ∧ hs.isPinching = true)) :
    (groupRun g prev vw vh states).1.position = g.position := by
  induction states generalizing g prev with
  | nil => rfl
  | cons hs rest ih =>
    have h1 : ¬(hs.isDetected = true ∧ hs.isPinching = true) :=
      h hs (List.mem_cons_self hs rest)
    have hrest : ∀ x ∈ rest, ¬(x.isDetected = true ∧ x.isPinching = true) :=
      fun x hx => h x (List.mem_cons_of_mem _ hx)
    calc (groupRun g prev vw vh (hs :: rest)).1.position
        = (groupFrame g prev hs vw vh).1.position := ih _ _ hrest
      _ = g.position := by
          unfold groupFrame
          rw [groupRotate_position, groupMove_position_hold g hs vw vh h1]

/-- Witness for groupPos_hold: 100 frames are subsumed by any list; here one
no-detection frame leaves a concrete group position (1, 2, 3) unchanged. -/
theorem groupPos_hold_witness :
    (groupRun ⟨⟨1, 2, 3⟩, 0, 0, 0⟩ none 1 1 [noHandState]).1.position =
      (GroupTransform.mk ⟨1, 2, 3⟩ 0 0 0).position :=
  groupPos_hold ⟨⟨1, 2, 3⟩, 0, 0, 0⟩ none 1 1 [noHandState]
    (by
      intro hs hhs
      rw [List.mem_singleton] at hhs
      subst hhs
      simp [noHandState])

/-- C8 counterexample: the rotation can stay static for a frame.  On the
first frame of a detection with a flat palm (detected, not pinching,
openness 1 greater than 0.6) no previous hand position is remembered, and the
tick leaves the whole group transform, rotation included, exactly unchanged:
neither the delta rotation nor the 0.001 idle rotation is applied. -/
theorem rotate_static_cex :
    (groupFrame ⟨⟨0, 0, 0⟩, 0, 0, 0⟩ none ⟨true, ⟨5 / 10, 5 / 10⟩, false, 1⟩ 1 1).1 =
      GroupTransform.mk ⟨0, 0, 0⟩ 0 0 0 := by
  unfold groupFrame groupRotate groupMove
  norm_num

/-- C8 amended: on a non-exploding tick, when a hand is detected, not
pinching and openness exceeds 0.6, the frame-to-frame gesture delta times
sensitivity 5.0 is added to yaw and pitch provided a previous-frame hand
position is remembered, but with no remembered position the rotation is left
entirely unchanged for that frame; the constant 0.001 idle yaw is applied
exactly when the flat-palm condition fails, so the shape CAN stay
rotationally static on the first flat-palm frame.  The previous position is
remembered exactly while a hand is detected. -/
theorem rotate_cases (g : GroupTransform) (hs : HandState) (prev : Option Vec2) :
    (hs.isDetected = true ∧ hs.isPinching = false ∧ hs.openness > 6 / 10 →
      (∀ p, prev = some p →
        (groupRotate g hs prev).rotY = g.rotY + (hs.position.x - p.x) * 5 ∧
        (groupRotate g hs prev).rotX = g.rotX + (hs.position.y - p.y) * 5) ∧
      (prev = none → groupRotate g hs prev = g)) ∧
    (¬(hs.isDetected = true ∧ hs.isPinching = false ∧ hs.openness > 6 / 10) →
      (groupRotate g hs prev).rotY = g.rotY + 1 / 1000 ∧
      (groupRotate g hs prev).rotX = g.rotX) ∧
    (hs.isDetected = true → nextPrevHandPos hs = some hs.position) ∧
    (hs.isDetected = false → nextPrevHandPos hs = none) := by
  refine ⟨fun hc => ⟨fun p hp => ?_, fun hp => ?_⟩, fun hc => ?_, fun hd => ?_,
    fun hd => ?_⟩
  · subst hp
    unfold groupRotate
    rw [if_pos hc]
    exact ⟨rfl, rfl⟩
  · subst hp
    unfold groupRotate
    rw [if_pos hc]
  · unfold groupRotate
    rw [if_neg hc]
    exact ⟨rfl, rfl⟩
  · unfold nextPrevHandPos
    rw [hd]
    rfl
  · unfold nextPrevHandPos
    rw [hd]
    rfl

end
